import Mathlib

/-!
Verification of the tractor actor runtime core (files `tractor/_actor.py` and
`tractor/_state.py`) against its natural-language specification.

The development shallowly embeds the parts of the source the claims need:

* the `_invoke` RPC responder task as a pure function from an abstract
  execution description to the list of frames it sends on the channel;
* the peer-table / `no_more_peers` bookkeeping of `Actor._stream_handler`
  as a small state machine;
* the message-loop dispatch of `Actor._process_messages` for one received
  message as a pure state-transition function;
* the `Arbiter` registry (`register_actor`, `find_actor`) over
  insertion-ordered association lists (mirroring Python dict semantics);
* `Actor.cancel` / `Actor.cancel_rpc_tasks` as an emitted action trace;
* `current_actor` from `tractor/_state.py`.

Python exceptions are modelled with `Option` / explicit error outcomes;
dicts with insertion-ordered association lists; `trio.Event.set` and
`clear` as a boolean field.
-/

namespace Tractor

/-- Payload values carried in frames; their identity is irrelevant to the
claims so an opaque countable type suffices. -/
abbrev Val := Nat

/-- A formatted traceback string. -/
abbrev Tb := String

/-- A frame sent by `_invoke` on the channel.  Every frame `_invoke` emits
carries the `cid` of the invocation, so the `cid` field is left implicit:
a `Frame` list is the per-`CallId` sequence. -/
inductive Frame where
  | functype (ft : String)
  | ret (v : Val)
  | yld (v : Val)
  | stop
  | error (tb : Tb)
deriving DecidableEq, Repr

/-- Result of running a piece of the invoked callable: either it completes
with a value, or it raises a Python `Exception` whose formatted traceback
is `tb`.  (`trio.Cancelled` is a `BaseException` in this code base and is
outside this sequential model.) -/
inductive CallRes where
  | ok (v : Val)
  | exn (tb : Tb)
deriving DecidableEq, Repr

/-- Abstract description of one `_invoke` run, covering the signature
check that precedes the `try` of `_invoke` in `tractor/_actor.py`, its
four classification branches, and the case in which evaluating the call
expression itself raises.

* `assertErr tb` : `func` declares a `chan` parameter but no `cid`
  parameter, so the assert at line 52 fails before the `try` (line 62)
  and before any send: no frame is emitted and the `AssertionError`
  escapes the task.
* `plain r` : `func` is synchronous (first branch, lines 69-78); `r` is the
  outcome of `func(**kwargs)` evaluated after the functype frame is sent.
* `callErr tb` : `func` is async but the call `coro = func(**kwargs)`
  (line 80) raises before any functype frame is sent.
* `agen ys r` : `coro` is a real async generator; iteration produces the
  items `ys` and then either completes (`ok`) or raises (`exn`).
* `trusted pushed r` : `func` declares a `chan` parameter (`treat_as_gen`,
  lines 110-118); the body is awaited and may itself push the frames
  `pushed` on the channel for this `cid`, then completes or raises.
* `afunc r` : plain async function; `r` is the outcome of `await coro`. -/
inductive Exec where
  | assertErr (tb : Tb)
  | plain (r : CallRes)
  | callErr (tb : Tb)
  | agen (ys : List Val) (r : CallRes)
  | trusted (pushed : List Frame) (r : CallRes)
  | afunc (r : CallRes)
deriving DecidableEq, Repr

/-- The run of `_invoke` for one invocation: the list of frames that end up
on the channel for this `CallId`, paired with the exception (if any) that
escapes the task.  Channel sends are assumed to succeed (the channel is
the reliable ordered pipe of the spec).  Mirrors the control flow of
`_invoke`: the signature assert sits before the `try`, so its failure
emits no frame and escapes the task; every raise point inside the `try`
is turned by the `except Exception` clause into a single trailing error
frame, after which the task completes normally. -/
def invokeRun : Exec → List Frame × Option Tb
  | .assertErr tb => ([], some tb)
  | .plain (.ok v) => ([.functype "function", .ret v], none)
  | .plain (.exn tb) => ([.functype "function", .error tb], none)
  | .callErr tb => ([.error tb], none)
  | .agen ys (.ok _) => (.functype "asyncgen" :: (ys.map Frame.yld ++ [.stop]), none)
  | .agen ys (.exn tb) => (.functype "asyncgen" :: (ys.map Frame.yld ++ [.error tb]), none)
  | .trusted pushed (.ok _) => (.functype "asyncgen" :: pushed, none)
  | .trusted pushed (.exn tb) => (.functype "asyncgen" :: (pushed ++ [.error tb]), none)
  | .afunc (.ok v) => ([.functype "asyncfunction", .ret v], none)
  | .afunc (.exn tb) => ([.functype "asyncfunction", .error tb], none)

/-- The frames `_invoke` leaves on the channel for the invocation. -/
def invokeFrames (e : Exec) : List Frame := (invokeRun e).1

/-- The tail of the frame shape asserted by the spec for streaming calls:
zero or more yield frames ending in one stop or one error frame. -/
def streamTail : List Frame → Bool
  | [Frame.stop] => true
  | [Frame.error _] => true
  | Frame.yld _ :: rest => streamTail rest
  | _ => false

/-- Exactly one return frame and nothing else. -/
def retOnly : List Frame → Bool
  | [Frame.ret _] => true
  | _ => false

/-- Shape claimed by the spec for the frames following the functype frame:
one return, one error, or yields ending with stop or error. -/
def tailShape (fs : List Frame) : Bool := retOnly fs || streamTail fs

/-- The full frame shape asserted by the claim: exactly one functype frame
followed by a `tailShape` tail (so, in particular, the last frame is
terminal and nothing follows it). -/
def claimShape : List Frame → Bool
  | Frame.functype _ :: rest => tailShape rest
  | _ => false

/-- Whether the execution went through the `treat_as_gen` branch, in which
the invoked async function holds the channel and pushes frames itself. -/
def Exec.isTrusted : Exec → Bool
  | .trusted _ _ => true
  | _ => false

/-- Whether evaluating the call expression `func(**kwargs)` itself raised
(async classification path, before any functype frame is sent). -/
def Exec.isCallErr : Exec → Bool
  | .callErr _ => true
  | _ => false

/-- Whether the run failed the pre-`try` signature assert (a `chan`
parameter without a `cid` parameter, line 52). -/
def Exec.isAssertErr : Exec → Bool
  | .assertErr _ => true
  | _ => false

theorem streamTail_yld_append (ys : List Val) (fs : List Frame) :
    streamTail (ys.map Frame.yld ++ fs) = streamTail fs := by
  induction ys with
  | nil => rfl
  | cons y ys ih => simpa [streamTail] using ih

/-- C1 (counterexample).  The claim asserts that every `_invoke` run emits
one functype frame followed by a terminal pattern.  An async function that
declares a `chan` parameter and completes without pushing anything emits
only the functype frame and no terminal frame at all, so the claimed shape
fails at this concrete input. -/
theorem invoke_trusted_counterexample :
    claimShape (invokeFrames (Exec.trusted [] (CallRes.ok 0))) = false := by
  rfl

/-- C1 (amended).  For every invocation that passes the pre-`try`
signature assert, is not a `chan`-trusted async function, and whose call
expression does not itself raise, the frames `_invoke` emits for the
`CallId` are exactly one functype frame followed by either one return
frame, one error frame, or zero-or-more yield frames ending with one stop
or one error frame; the terminal frame is the last frame emitted, so
nothing follows it.  (The excluded runs really diverge from that shape: a
failed assert emits zero frames, a trusted function gets only the
preamble, a raising call expression yields a bare error frame.) -/
theorem invoke_frames_shape (e : Exec) (h0 : e.isAssertErr = false)
    (h1 : e.isTrusted = false) (h2 : e.isCallErr = false) :
    claimShape (invokeFrames e) = true := by
  cases e with
  | assertErr tb => simp [Exec.isAssertErr] at h0
  | plain r => cases r <;> rfl
  | callErr tb => simp [Exec.isCallErr] at h2
  | agen ys r =>
    cases r with
    | ok v =>
      show claimShape (Frame.functype "asyncgen" :: (ys.map Frame.yld ++ [Frame.stop])) = true
      simp [claimShape, tailShape, streamTail_yld_append, streamTail]
    | exn tb =>
      show claimShape (Frame.functype "asyncgen" :: (ys.map Frame.yld ++ [Frame.error tb])) = true
      simp [claimShape, tailShape, streamTail_yld_append, streamTail]
  | trusted pushed r => simp [Exec.isTrusted] at h1
  | afunc r => cases r <;> rfl

/-- C1 (witness): the amended shape theorem applied to a concrete plain
synchronous call returning a value. -/
theorem invoke_frames_shape_witness :
    (Exec.plain (CallRes.ok 0)).isAssertErr = false ∧
    (Exec.plain (CallRes.ok 0)).isTrusted = false ∧
    (Exec.plain (CallRes.ok 0)).isCallErr = false ∧
    claimShape (invokeFrames (Exec.plain (CallRes.ok 0))) = true :=
  ⟨rfl, rfl, rfl, invoke_frames_shape (Exec.plain (CallRes.ok 0)) rfl rfl rfl⟩

/-- Number of error frames in a frame list. -/
def errCount : List Frame → Nat
  | [] => 0
  | Frame.error _ :: rest => errCount rest + 1
  | _ :: rest => errCount rest

/-- Frames pushed by the invoked function itself (nonempty only for the
`chan`-trusted branch, where the function owns the channel). -/
def pushedFrames : Exec → List Frame
  | .trusted p _ => p
  | _ => []

/-- The traceback of the exception raised inside the invoked callable, when
its execution raised one.  An `assertErr` run is `none` here: the assert
fires in `_invoke` itself, before the callable is ever invoked. -/
def outcomeExn : Exec → Option Tb
  | .plain (.exn tb) => some tb
  | .callErr tb => some tb
  | .agen _ (.exn tb) => some tb
  | .trusted _ (.exn tb) => some tb
  | .afunc (.exn tb) => some tb
  | _ => none

theorem errCount_append (l1 l2 : List Frame) :
    errCount (l1 ++ l2) = errCount l1 + errCount l2 := by
  induction l1 with
  | nil => simp [errCount]
  | cons f l ih =>
    cases f <;> simp [errCount, ih]
    omega

theorem errCount_yld_map (ys : List Val) : errCount (ys.map Frame.yld) = 0 := by
  induction ys with
  | nil => rfl
  | cons y ys ih => simpa [errCount] using ih

/-- C3.  For every invoked function and every exception raised inside it,
`_invoke` sends exactly one error reply of its own (one more error frame
than whatever the `chan`-trusted function pushed itself), that error frame
carries the formatted traceback and is the last frame emitted, and the
task completes without re-raising (the escaping-exception component of
`invokeRun` is `none`), so the exception never reaches the message loop. -/
theorem invoke_single_error_reply (e : Exec) (tb : Tb)
    (h : outcomeExn e = some tb) :
    errCount (invokeFrames e) = errCount (pushedFrames e) + 1 ∧
    (invokeFrames e).getLast? = some (Frame.error tb) ∧
    (invokeRun e).2 = none := by
  cases e with
  | assertErr tb0 => simp [outcomeExn] at h
  | plain r =>
    cases r with
    | ok v => simp [outcomeExn] at h
    | exn tb0 =>
      obtain rfl : tb0 = tb := by simpa [outcomeExn] using h
      refine ⟨rfl, ?_, rfl⟩
      rfl
  | callErr tb0 =>
    obtain rfl : tb0 = tb := by simpa [outcomeExn] using h
    exact ⟨rfl, rfl, rfl⟩
  | agen ys r =>
    cases r with
    | ok v => simp [outcomeExn] at h
    | exn tb0 =>
      obtain rfl : tb0 = tb := by simpa [outcomeExn] using h
      refine ⟨?_, ?_, rfl⟩
      · show errCount (Frame.functype "asyncgen" :: (ys.map Frame.yld ++ [Frame.error tb0])) = _
        simp [errCount, errCount_append, errCount_yld_map, pushedFrames]
      · show (Frame.functype "asyncgen" :: (ys.map Frame.yld ++ [Frame.error tb0])).getLast? = _
        rw [← List.cons_append]
        exact List.getLast?_concat _
  | trusted pushed r =>
    cases r with
    | ok v => simp [outcomeExn] at h
    | exn tb0 =>
      obtain rfl : tb0 = tb := by simpa [outcomeExn] using h
      refine ⟨?_, ?_, rfl⟩
      · show errCount (Frame.functype "asyncgen" :: (pushed ++ [Frame.error tb0])) = _
        simp [errCount, errCount_append, pushedFrames]
      · show (Frame.functype "asyncgen" :: (pushed ++ [Frame.error tb0])).getLast? = _
        rw [← List.cons_append]
        exact List.getLast?_concat _
  | afunc r =>
    cases r with
    | ok v => simp [outcomeExn] at h
    | exn tb0 =>
      obtain rfl : tb0 = tb := by simpa [outcomeExn] using h
      exact ⟨rfl, rfl, rfl⟩

/-- C3 (witness): the single-error-reply theorem applied to a concrete
async function call whose body raises. -/
theorem invoke_single_error_reply_witness :
    outcomeExn (Exec.afunc (CallRes.exn "boom")) = some "boom" ∧
    (errCount (invokeFrames (Exec.afunc (CallRes.exn "boom"))) =
      errCount (pushedFrames (Exec.afunc (CallRes.exn "boom"))) + 1 ∧
    (invokeFrames (Exec.afunc (CallRes.exn "boom"))).getLast? =
      some (Frame.error "boom") ∧
    (invokeRun (Exec.afunc (CallRes.exn "boom"))).2 = none) :=
  ⟨rfl, invoke_single_error_reply (Exec.afunc (CallRes.exn "boom")) "boom" rfl⟩

/-- An actor identity: `(name, instance_uid)`. -/
abbrev Uid := String × String

/-- An opaque channel identity. -/
abbrev ChanId := Nat

/-- The peer-tracking slice of `Actor` state: the `_peers` table
(insertion-ordered map from remote uid to its list of live channels,
mirroring `defaultdict(list)`) and the `_no_more_peers` event modelled as
a boolean (`true` = set). -/
structure PeerState where
  peers : List (Uid × List ChanId)
  noMorePeers : Bool
deriving DecidableEq, Repr

/-- The state `Actor.__init__` establishes: empty peer table and the
`_no_more_peers` event set. -/
def initPeerState : PeerState := ⟨[], true⟩

/-- Events of the peer bookkeeping, taken from `_stream_handler`:

* `connEnter` — a new inbound connection arrives; the handler first line
  clears `_no_more_peers`;
* `handshakeFail` — `_do_handshake` raised `StopAsyncIteration` and the
  handler returns without touching any other state;
* `register uid c` — the handshake succeeded and the channel is appended
  to `_peers[uid]`;
* `disconnect uid c` — message-loop teardown: the channel is removed from
  `_peers[uid]`, the entry popped when it empties, and `_no_more_peers`
  set when the whole table empties. -/
inductive PeerEvt where
  | connEnter
  | handshakeFail
  | register (uid : Uid) (c : ChanId)
  | disconnect (uid : Uid) (c : ChanId)
deriving DecidableEq, Repr

/-- `self._peers[uid].append(chan)` over a `defaultdict(list)`: append to
the existing entry, or create the entry at the end of the table. -/
def appendChan : List (Uid × List ChanId) → Uid → ChanId → List (Uid × List ChanId)
  | [], u, c => [(u, [c])]
  | (k, cs) :: rest, u, c =>
    if k = u then (k, cs ++ [c]) :: rest else (k, cs) :: appendChan rest u c

/-- The teardown bookkeeping of `_stream_handler`: `chans.remove(chan)`
(first occurrence) followed by `pop` of the entry when the list empties. -/
def removeChan : List (Uid × List ChanId) → Uid → ChanId → List (Uid × List ChanId)
  | [], _, _ => []
  | (k, cs) :: rest, u, c =>
    if k = u then
      let cs2 := cs.erase c
      if cs2 = [] then rest else (k, cs2) :: rest
    else (k, cs) :: removeChan rest u c

/-- One step of the peer bookkeeping, as performed by `_stream_handler`. -/
def stepPeer (s : PeerState) : PeerEvt → PeerState
  | .connEnter => { s with noMorePeers := false }
  | .handshakeFail => s
  | .register u c => { s with peers := appendChan s.peers u c }
  | .disconnect u c =>
    let ps := removeChan s.peers u c
    { peers := ps, noMorePeers := if ps = [] then true else s.noMorePeers }

/-- Run a sequence of peer events from a state. -/
def runPeer (s : PeerState) : List PeerEvt → PeerState
  | [] => s
  | e :: es => runPeer (stepPeer s e) es

/-- C2 (code bug, evaluated).  An inbound connection whose handshake fails
leaves the actor with an empty peer table but with `_no_more_peers`
cleared: `_stream_handler` clears the event on entry and the
`StopAsyncIteration` return path never re-sets it, so the claimed
equivalence between the event and emptiness of the table is violated. -/
theorem no_more_peers_handshake_failure :
    (runPeer initPeerState [PeerEvt.connEnter, PeerEvt.handshakeFail]).peers = [] ∧
    (runPeer initPeerState [PeerEvt.connEnter, PeerEvt.handshakeFail]).noMorePeers = false ∧
    ¬ ((runPeer initPeerState [PeerEvt.connEnter, PeerEvt.handshakeFail]).noMorePeers = true ↔
       (runPeer initPeerState [PeerEvt.connEnter, PeerEvt.handshakeFail]).peers = []) := by
  refine ⟨rfl, rfl, ?_⟩
  intro h
  exact absurd (h.mpr rfl) (by simp [runPeer, stepPeer, initPeerState])

/-- A socket address `(host, port)`. -/
abbrev Addr := String × Nat

/-- Identity of a `trio.Event` object created by `wait_for_actor`. -/
abbrev EventId := Nat

/-- An entry of the `Arbiter._waiters` lists.  In the source the same list
holds both `trio.Event` objects (appended by `wait_for_actor`) and plain
uid tuples (appended by `register_actor`). -/
inductive WEntry where
  | ev (e : EventId)
  | actorUid (u : Uid)
deriving DecidableEq, Repr

/-- Errors raised by Python at the modelled raise points. -/
inductive PyErr where
  | attributeError
  | keyError
deriving DecidableEq, Repr

/-- The `Arbiter` state: `_registry` (insertion-ordered dict from uid to
socket address), `_waiters` (dict from name to entry list) and, standing
in for the shared `trio.Event` objects, the set of event identities that
have been fired with `.set()`. -/
structure ArbState where
  registry : List (Uid × Addr)
  waiters : List (String × List WEntry)
  fired : List EventId
deriving DecidableEq, Repr

/-- Python dict assignment `d[k] = v`: update the existing entry in place,
or append a new entry at the end. -/
def insertUpd : List (Uid × Addr) → Uid → Addr → List (Uid × Addr)
  | [], u, a => [(u, a)]
  | (k, v) :: rest, u, a =>
    if k = u then (k, a) :: rest else (k, v) :: insertUpd rest u a

/-- `self._waiters.pop(name, ())`: the popped list (or `[]`) together with
the dict with that entry removed. -/
def popWaiters : List (String × List WEntry) → String → List WEntry × List (String × List WEntry)
  | [], _ => ([], [])
  | (k, es) :: rest, n =>
    if k = n then (es, rest)
    else
      let r := popWaiters rest n
      (r.1, (k, es) :: r.2)

/-- `self._waiters.setdefault(name, []).append(e)`: append to the entry
for `name`, creating it at the end of the dict when absent. -/
def appendWaiter : List (String × List WEntry) → String → WEntry → List (String × List WEntry)
  | [], n, e => [(n, [e])]
  | (k, es) :: rest, n, e =>
    if k = n then (k, es ++ [e]) :: rest else (k, es) :: appendWaiter rest n e

/-- The `for event in events: event.set()` loop of `register_actor`: fires
events in order; hitting a uid entry raises `AttributeError` (a tuple has
no `set` method) and stops the loop. -/
def fireEvents (fired : List EventId) : List WEntry → List EventId × Option PyErr
  | [] => (fired, none)
  | WEntry.ev e :: rest => fireEvents (fired ++ [e]) rest
  | WEntry.actorUid _ :: _ => (fired, some PyErr.attributeError)

/-- `Arbiter.register_actor(uid, sockaddr)`: insert into `_registry`, pop
the waiter list for `uid.name`, re-insert the registering uid as the sole
waiter entry for that name, then fire the popped events. -/
def register_actor (s : ArbState) (uid : Uid) (sockaddr : Addr) : ArbState × Option PyErr :=
  let registry2 := insertUpd s.registry uid sockaddr
  let popped := popWaiters s.waiters uid.1
  let waiters3 := appendWaiter popped.2 uid.1 (WEntry.actorUid uid)
  let firedRes := fireEvents s.fired popped.1
  ({ registry := registry2, waiters := waiters3, fired := firedRes.1 }, firedRes.2)

/-- The scan of `Arbiter.find_actor`: `for uid, sockaddr in
self._registry.items(): if name in uid: return sockaddr`.  Python tuple
membership `name in uid` is true when `name` equals either component. -/
def findActorScan : List (Uid × Addr) → String → Option Addr
  | [], _ => none
  | (u, a) :: rest, n => if n = u.1 ∨ n = u.2 then some a else findActorScan rest n

/-- `Arbiter.find_actor(name)`. -/
def find_actor (s : ArbState) (n : String) : Option Addr := findActorScan s.registry n

/-- Dict lookup in `_registry`. -/
def lookupReg : List (Uid × Addr) → Uid → Option Addr
  | [], _ => none
  | (k, a) :: rest, u => if k = u then some a else lookupReg rest u

/-- The waiter list currently stored under a name (empty when absent). -/
def waitersFor : List (String × List WEntry) → String → List WEntry
  | [], _ => []
  | (k, es) :: rest, n => if k = n then es else waitersFor rest n

theorem popWaiters_fst (w : List (String × List WEntry)) (n : String) :
    (popWaiters w n).1 = waitersFor w n := by
  induction w with
  | nil => rfl
  | cons p rest ih =>
    obtain ⟨k, es⟩ := p
    by_cases h : k = n <;> simp [popWaiters, waitersFor, h, ih]

theorem waitersFor_not_mem (w : List (String × List WEntry)) (n : String)
    (h : n ∉ w.map Prod.fst) : waitersFor w n = [] := by
  induction w with
  | nil => rfl
  | cons p rest ih =>
    obtain ⟨k, es⟩ := p
    simp only [List.map_cons, List.mem_cons] at h
    push_neg at h
    have hkn : ¬ k = n := fun hh => h.1 hh.symm
    simp [waitersFor, hkn, ih h.2]

theorem popWaiters_snd_not_mem (w : List (String × List WEntry)) (n : String)
    (hnd : (w.map Prod.fst).Nodup) :
    waitersFor (popWaiters w n).2 n = [] := by
  induction w with
  | nil => rfl
  | cons p rest ih =>
    obtain ⟨k, es⟩ := p
    rw [List.map_cons, List.nodup_cons] at hnd
    by_cases h : k = n
    · have h2 : (popWaiters ((k, es) :: rest) n).2 = rest := by
        simp [popWaiters, h]
      rw [h2]
      exact waitersFor_not_mem rest n (h ▸ hnd.1)
    · have h2 : (popWaiters ((k, es) :: rest) n).2 = (k, es) :: (popWaiters rest n).2 := by
        simp [popWaiters, h]
      rw [h2]
      simp only [waitersFor, if_neg h]
      exact ih hnd.2

theorem waitersFor_appendWaiter_self (w : List (String × List WEntry)) (n : String)
    (e : WEntry) :
    waitersFor (appendWaiter w n e) n = waitersFor w n ++ [e] := by
  induction w with
  | nil => simp [appendWaiter, waitersFor]
  | cons p rest ih =>
    obtain ⟨k, es⟩ := p
    by_cases h : k = n <;> simp [appendWaiter, waitersFor, h, ih]

theorem fireEvents_mem_mono (f : List EventId) (es : List WEntry) (i : EventId)
    (h : i ∈ f) : i ∈ (fireEvents f es).1 := by
  induction es generalizing f with
  | nil => simpa [fireEvents] using h
  | cons w rest ih =>
    cases w with
    | ev e => exact ih (f ++ [e]) (by simp [h])
    | actorUid u => simpa [fireEvents] using h

theorem fireEvents_all_ev (f : List EventId) (es : List WEntry)
    (h : ∀ w ∈ es, ∃ i, w = WEntry.ev i) :
    (fireEvents f es).2 = none ∧
    ∀ i, WEntry.ev i ∈ es → i ∈ (fireEvents f es).1 := by
  induction es generalizing f with
  | nil => simp [fireEvents]
  | cons w rest ih =>
    obtain ⟨i, rfl⟩ := h w (by simp)
    have hrest : ∀ w ∈ rest, ∃ j, w = WEntry.ev j := fun w hw => h w (by simp [hw])
    obtain ⟨h1, h2⟩ := ih (f ++ [i]) hrest
    refine ⟨by simpa [fireEvents] using h1, ?_⟩
    intro j hj
    rcases List.mem_cons.mp hj with hj | hj
    · have hji : j = i := by simpa using hj
      rw [hji]
      show i ∈ (fireEvents (f ++ [i]) rest).1
      exact fireEvents_mem_mono (f ++ [i]) rest i (by simp)
    · exact h2 j hj

theorem lookupReg_insertUpd_self (r : List (Uid × Addr)) (u : Uid) (a : Addr) :
    lookupReg (insertUpd r u a) u = some a := by
  induction r with
  | nil => simp [insertUpd, lookupReg]
  | cons p rest ih =>
    obtain ⟨k, v⟩ := p
    by_cases h : k = u <;> simp [insertUpd, lookupReg, h, ih]

/-- C5 (counterexample).  The claim asserts that after `register_actor`
the waiter list for `uid.name` contains no entries.  Registering a fresh
uid against the empty arbiter state leaves the waiter list for that name
holding exactly one entry: the registering uid itself, which
`register_actor` inserts right after popping the events. -/
theorem register_actor_waiters_counterexample :
    waitersFor
      (register_actor ⟨[], [], []⟩ ("w", "u1") ("h", 1)).1.waiters "w" =
      [WEntry.actorUid ("w", "u1")] ∧
    waitersFor
      (register_actor ⟨[], [], []⟩ ("w", "u1") ("h", 1)).1.waiters "w" ≠ [] := by
  exact ⟨rfl, by decide⟩

/-- C5 (amended).  Provided the waiter-name keys are distinct (they come
from a Python dict) and every entry currently stored under `uid.name` is a
real event (the mixed uid entries the source also stores would crash the
firing loop with `AttributeError`), `register_actor(uid, sockaddr)`
updates `registry[uid]` to `sockaddr`, fires every waiter event previously
stored under `uid.name`, completes without raising and leaves the waiter
list for `uid.name` holding exactly one entry: the registering uid. -/
theorem register_actor_fires_waiters (s : ArbState) (uid : Uid) (a : Addr)
    (hnd : (s.waiters.map Prod.fst).Nodup)
    (hev : ∀ w ∈ waitersFor s.waiters uid.1, ∃ i, w = WEntry.ev i) :
    lookupReg (register_actor s uid a).1.registry uid = some a ∧
    (∀ i, WEntry.ev i ∈ waitersFor s.waiters uid.1 →
      i ∈ (register_actor s uid a).1.fired) ∧
    waitersFor (register_actor s uid a).1.waiters uid.1 = [WEntry.actorUid uid] ∧
    (register_actor s uid a).2 = none := by
  have hpop : (popWaiters s.waiters uid.1).1 = waitersFor s.waiters uid.1 :=
    popWaiters_fst s.waiters uid.1
  have hfire := fireEvents_all_ev s.fired (popWaiters s.waiters uid.1).1
    (by rw [hpop]; exact hev)
  refine ⟨lookupReg_insertUpd_self s.registry uid a, ?_, ?_, ?_⟩
  · intro i hi
    exact hfire.2 i (by rw [hpop]; exact hi)
  · show waitersFor
      (appendWaiter (popWaiters s.waiters uid.1).2 uid.1 (WEntry.actorUid uid)) uid.1 = _
    rw [waitersFor_appendWaiter_self, popWaiters_snd_not_mem s.waiters uid.1 hnd]
    rfl
  · exact hfire.1

/-- C5 (witness): the amended theorem applied to an arbiter state with one
pending waiter event under the registered name. -/
theorem register_actor_fires_waiters_witness :
    ((([("w", [WEntry.ev 5])] : List (String × List WEntry)).map Prod.fst).Nodup ∧
      ∀ w ∈ waitersFor [("w", [WEntry.ev 5])] ("w", "u1").1, ∃ i, w = WEntry.ev i) ∧
    (lookupReg (register_actor ⟨[], [("w", [WEntry.ev 5])], []⟩ ("w", "u1") ("h", 1)).1.registry
        ("w", "u1") = some ("h", 1) ∧
      (∀ i, WEntry.ev i ∈ waitersFor [("w", [WEntry.ev 5])] ("w", "u1").1 →
        i ∈ (register_actor ⟨[], [("w", [WEntry.ev 5])], []⟩ ("w", "u1") ("h", 1)).1.fired) ∧
      waitersFor (register_actor ⟨[], [("w", [WEntry.ev 5])], []⟩ ("w", "u1") ("h", 1)).1.waiters
        ("w", "u1").1 = [WEntry.actorUid ("w", "u1")] ∧
      (register_actor ⟨[], [("w", [WEntry.ev 5])], []⟩ ("w", "u1") ("h", 1)).2 = none) := by
  have hnd : (([("w", [WEntry.ev 5])] : List (String × List WEntry)).map Prod.fst).Nodup := by
    simp
  have hev : ∀ w ∈ waitersFor [("w", [WEntry.ev 5])] ("w", "u1").1, ∃ i, w = WEntry.ev i := by
    intro w hw
    refine ⟨5, ?_⟩
    simpa [waitersFor] using hw
  exact ⟨⟨hnd, hev⟩,
    register_actor_fires_waiters ⟨[], [("w", [WEntry.ev 5])], []⟩ ("w", "u1") ("h", 1) hnd hev⟩

theorem findActorScan_eq_find (reg : List (Uid × Addr)) (n : String) :
    findActorScan reg n =
      (reg.find? (fun p => decide (n = p.1.1 ∨ n = p.1.2))).map Prod.snd := by
  induction reg with
  | nil => rfl
  | cons p rest ih =>
    obtain ⟨u, a⟩ := p
    by_cases h : n = u.1 ∨ n = u.2
    · simp [findActorScan, h, List.find?_cons]
    · simp [findActorScan, h, List.find?_cons, ih]

/-- C6 (counterexample).  The claim asserts `find_actor(name)` returns
nothing when no registered `ActorId` has `name` as its name component.
The scan tests Python tuple membership `name in uid`, which also matches
the uid component: looking up the instance uid string of the only
registered actor returns its address although its name component differs. -/
theorem find_actor_uuid_match_counterexample :
    find_actor ⟨[(("alice", "u123"), ("h", 1))], [], []⟩ "u123" = some ("h", 1) ∧
    (("alice", "u123") : Uid).1 ≠ "u123" := by
  exact ⟨rfl, by decide⟩

/-- C6 (amended).  `find_actor(name)` returns the socket address of the
first registered entry whose `ActorId` has `name` as either component
(name or instance uid), and returns nothing exactly when no registered
`ActorId` contains `name` in either component. -/
theorem find_actor_first_match (s : ArbState) (n : String) :
    find_actor s n =
      (s.registry.find? (fun p => decide (n = p.1.1 ∨ n = p.1.2))).map Prod.snd ∧
    (find_actor s n = none ↔ ∀ p ∈ s.registry, ¬ (n = p.1.1 ∨ n = p.1.2)) := by
  refine ⟨findActorScan_eq_find s.registry n, ?_⟩
  rw [show find_actor s n = findActorScan s.registry n from rfl,
    findActorScan_eq_find s.registry n]
  simp [List.find?_eq_none]

theorem insertUpd_insertUpd (r : List (Uid × Addr)) (u : Uid) (a1 a2 : Addr) :
    insertUpd (insertUpd r u a1) u a2 = insertUpd r u a2 := by
  induction r with
  | nil => simp [insertUpd]
  | cons p rest ih =>
    obtain ⟨k, v⟩ := p
    by_cases h : k = u <;> simp [insertUpd, h, ih]

/-- C7.  Registering the same `ActorId` twice leaves `_registry` in the
same state as registering it once with the latest socket address: the
dict-assignment `self._registry[uid] = sockaddr` updates in place, so the
first registration is completely overwritten. -/
theorem register_actor_idempotent_registry (s : ArbState) (uid : Uid) (a1 a2 : Addr) :
    (register_actor (register_actor s uid a1).1 uid a2).1.registry =
      (register_actor s uid a2).1.registry := by
  show insertUpd (insertUpd s.registry uid a1) uid a2 = insertUpd s.registry uid a2
  exact insertUpd_insertUpd s.registry uid a1 a2

/-- A decoded `cmd` tuple `(ns, funcname, kwargs, actorid, cid)`; the
kwargs payload is opaque. -/
structure Cmd where
  ns : String
  funcname : String
  kwargs : Nat
  actorid : Uid
  cid : String
deriving DecidableEq, Repr

/-- A message received by `Actor._process_messages`, as the loop observes
it: `cid` is the value the loop reads for the cid key (`none` models both an absent
key and an explicit `None`), `cmd` is the decoded command tuple when the
`cmd` key is present, `error` the error string when the `error` key is
present. -/
structure Msg where
  cid : Option String
  cmd : Option Cmd
  error : Option String
deriving DecidableEq, Repr

/-- The state the message loop mutates while handling one message: the
per-peer reply-inbox table `_actors2calls` (uid to list of (cid, queue
contents)) and the `_exc` slot of the channel the loop owns. -/
structure LoopState where
  actors2calls : List (Uid × List (String × List Msg))
  chanExc : Option String
deriving DecidableEq, Repr

/-- `get_waitq` plus `q.put(msg)` within one inbox table: append to the
queue for `cid`, creating it when absent. -/
def pushInbox : List (String × List Msg) → String → Msg → List (String × List Msg)
  | [], cid, m => [(cid, [m])]
  | (k, q) :: rest, cid, m =>
    if k = cid then (k, q ++ [m]) :: rest else (k, q) :: pushInbox rest cid m

/-- `Actor._push_result(actorid, cid, msg)`: deliver into the queue for
`(actorid, cid)`, creating table entries on demand (`setdefault`). -/
def pushResult : List (Uid × List (String × List Msg)) → Uid → String → Msg →
    List (Uid × List (String × List Msg))
  | [], u, cid, m => [(u, pushInbox [] cid m)]
  | (k, qs) :: rest, u, cid, m =>
    if k = u then (k, pushInbox qs cid m) :: rest
    else (k, qs) :: pushResult rest u cid m

/-- Plain dict lookup `self._actors2calls[uid]` (raising `KeyError` when
absent is modelled at the call site via `none`). -/
def lookupCalls : List (Uid × List (String × List Msg)) → Uid →
    Option (List (String × List Msg))
  | [], _ => none
  | (k, qs) :: rest, u => if k = u then some qs else lookupCalls rest u

/-- Replace the inbox table of one peer (no-op when the peer is absent). -/
def setCalls : List (Uid × List (String × List Msg)) → Uid →
    List (String × List Msg) → List (Uid × List (String × List Msg))
  | [], _, _ => []
  | (k, qs) :: rest, u, qs2 =>
    if k = u then (k, qs2) :: rest else (k, qs) :: setCalls rest u qs2

/-- The broadcast loop `for cid in self._actors2calls[chan.uid]:
await self._push_result(chan.uid, cid, msg)`: the message is appended to
every existing queue of the peer. -/
def broadcastAll : List (String × List Msg) → Msg → List (String × List Msg)
  | [], _ => []
  | (k, q) :: rest, m => (k, q ++ [m]) :: broadcastAll rest m

/-- Observable outcome of processing one message. -/
inductive StepOut where
  | pushedReply (cid : String)
  | spawned (c : Cmd)
  | raisedKeyError
  | raisedInternal (err : String)
deriving DecidableEq, Repr

/-- The non-reply path of the loop body: cmd-tuple dispatch, and on
`KeyError` the unsolicited-error handling (store the error string into
`chan._exc`) followed by the broadcast and `raise InternalActorError`.
A message with neither `cmd` nor `error` key raises `KeyError` when the
error key is read; a
message from a peer with no `_actors2calls` entry raises `KeyError` at
the broadcast lookup, before `InternalActorError` is ever constructed. -/
def processNonReply (s : LoopState) (uid : Uid) (m : Msg) : LoopState × StepOut :=
  match m.cmd with
  | some c => (s, StepOut.spawned c)
  | none =>
    match m.error with
    | none => (s, StepOut.raisedKeyError)
    | some err =>
      let s1 := { s with chanExc := some err }
      match lookupCalls s1.actors2calls uid with
      | none => (s1, StepOut.raisedKeyError)
      | some qs =>
        ({ s1 with actors2calls := setCalls s1.actors2calls uid (broadcastAll qs m) },
          StepOut.raisedInternal err)

/-- One iteration of the message loop body of `Actor._process_messages`
for a received (non-`None`) message: the truthiness test on the value
read for the cid key routes the message to the reply inbox, everything else falls through to
command, then error, processing. -/
def processMsg (s : LoopState) (uid : Uid) (m : Msg) : LoopState × StepOut :=
  match m.cid with
  | some c =>
    if c ≠ "" then
      ({ s with actors2calls := pushResult s.actors2calls uid c m },
        StepOut.pushedReply c)
    else processNonReply s uid m
  | none => processNonReply s uid m

theorem broadcastAll_eq_map (qs : List (String × List Msg)) (m : Msg) :
    broadcastAll qs m = qs.map (fun p => (p.1, p.2 ++ [m])) := by
  induction qs with
  | nil => rfl
  | cons p rest ih =>
    obtain ⟨k, q⟩ := p
    simp [broadcastAll, ih]

theorem lookupCalls_setCalls (a2c : List (Uid × List (String × List Msg)))
    (u : Uid) (qs qs2 : List (String × List Msg))
    (h : lookupCalls a2c u = some qs) :
    lookupCalls (setCalls a2c u qs2) u = some qs2 := by
  induction a2c with
  | nil => simp [lookupCalls] at h
  | cons p rest ih =>
    obtain ⟨k, v⟩ := p
    by_cases hk : k = u
    · simp [setCalls, lookupCalls, hk]
    · simp only [setCalls, if_neg hk, lookupCalls]
      simp only [lookupCalls, if_neg hk] at h
      exact ih h

/-- C4 (counterexample).  The claim asserts that an `error`-only message
always ends in `raise InternalActorError`, including for a peer with no
in-flight calls.  For a peer that never had an entry in `_actors2calls`,
the broadcast lookup `self._actors2calls[chan.uid]` raises `KeyError`
inside the `except KeyError` handler, so `InternalActorError` is never
raised; the channel is still marked errored first. -/
theorem unsolicited_error_keyerror_counterexample :
    (processMsg ⟨[], none⟩ ("p", "x") ⟨none, none, some "boom"⟩).2 =
      StepOut.raisedKeyError ∧
    (processMsg ⟨[], none⟩ ("p", "x") ⟨none, none, some "boom"⟩).1.chanExc =
      some "boom" ∧
    StepOut.raisedKeyError ≠ StepOut.raisedInternal "boom" := by
  exact ⟨rfl, rfl, by decide⟩

/-- C4 (amended).  For a received message with an `error` field and
neither a `cid` nor a `cmd` field, the loop marks the channel as errored;
then, when the peer has an entry in `_actors2calls`, it pushes the
message into every reply inbox of that peer and raises
`InternalActorError`; when the peer has no entry at all, the broadcast
lookup raises `KeyError` instead of `InternalActorError`. -/
theorem process_unsolicited_error (s : LoopState) (uid : Uid) (m : Msg)
    (err : String) (h1 : m.cid = none) (h2 : m.cmd = none)
    (h3 : m.error = some err) :
    (processMsg s uid m).1.chanExc = some err ∧
    (∀ qs, lookupCalls s.actors2calls uid = some qs →
      (processMsg s uid m).2 = StepOut.raisedInternal err ∧
      lookupCalls (processMsg s uid m).1.actors2calls uid =
        some (qs.map (fun p => (p.1, p.2 ++ [m])))) ∧
    (lookupCalls s.actors2calls uid = none →
      (processMsg s uid m).2 = StepOut.raisedKeyError) := by
  obtain ⟨mc, mcmd, merr⟩ := m
  obtain rfl : mc = none := h1
  obtain rfl : mcmd = none := h2
  obtain rfl : merr = some err := h3
  refine ⟨?_, ?_, ?_⟩
  · cases hl : lookupCalls s.actors2calls uid with
    | none => simp [processMsg, processNonReply, hl]
    | some qs => simp [processMsg, processNonReply, hl]
  · intro qs hl
    constructor
    · simp [processMsg, processNonReply, hl]
    · simp only [processMsg, processNonReply, hl]
      rw [lookupCalls_setCalls s.actors2calls uid qs
        (broadcastAll qs (⟨none, none, some err⟩ : Msg)) hl, broadcastAll_eq_map]
  · intro hl
    simp [processMsg, processNonReply, hl]

/-- C4 (witness): the amended theorem at a concrete state in which the
peer has one (stale, empty) reply inbox. -/
theorem process_unsolicited_error_witness :
    ((⟨none, none, some "boom"⟩ : Msg).cid = none ∧
      (⟨none, none, some "boom"⟩ : Msg).cmd = none ∧
      (⟨none, none, some "boom"⟩ : Msg).error = some "boom") ∧
    ((processMsg ⟨[(("p", "x"), [("c1", [])])], none⟩ ("p", "x")
        ⟨none, none, some "boom"⟩).1.chanExc = some "boom" ∧
      (∀ qs, lookupCalls ([(("p", "x"), [("c1", [])])] :
          List (Uid × List (String × List Msg))) ("p", "x") = some qs →
        (processMsg ⟨[(("p", "x"), [("c1", [])])], none⟩ ("p", "x")
          ⟨none, none, some "boom"⟩).2 = StepOut.raisedInternal "boom" ∧
        lookupCalls (processMsg ⟨[(("p", "x"), [("c1", [])])], none⟩ ("p", "x")
            ⟨none, none, some "boom"⟩).1.actors2calls ("p", "x") =
          some (qs.map (fun p => (p.1, p.2 ++ [(⟨none, none, some "boom"⟩ : Msg)])))) ∧
      (lookupCalls ([(("p", "x"), [("c1", [])])] :
          List (Uid × List (String × List Msg))) ("p", "x") = none →
        (processMsg ⟨[(("p", "x"), [("c1", [])])], none⟩ ("p", "x")
          ⟨none, none, some "boom"⟩).2 = StepOut.raisedKeyError)) :=
  ⟨⟨rfl, rfl, rfl⟩,
    process_unsolicited_error ⟨[(("p", "x"), [("c1", [])])], none⟩ ("p", "x")
      ⟨none, none, some "boom"⟩ "boom" rfl rfl rfl⟩

theorem processNonReply_not_reply (s : LoopState) (uid : Uid) (m : Msg)
    (c : String) : (processNonReply s uid m).2 ≠ StepOut.pushedReply c := by
  obtain ⟨mc, mcmd, merr⟩ := m
  cases mcmd with
  | some cmd => simp [processNonReply]
  | none =>
    cases merr with
    | none => simp [processNonReply]
    | some err =>
      cases hl : lookupCalls s.actors2calls uid with
      | none => simp [processNonReply, hl]
      | some qs => simp [processNonReply, hl]

/-- C10 (counterexample).  The claim asserts that a message whose `cid`
maps to a falsy value is not delivered to any `ReplyInbox`.  An
unsolicited error message with `cid` equal to the empty string falls
through to error processing, which broadcasts that very message into
every existing reply inbox of the peer: here the inbox `c1` receives it. -/
theorem falsy_cid_broadcast_counterexample :
    (⟨some "", none, some "boom"⟩ : Msg).cid = some "" ∧
    lookupCalls (processMsg ⟨[(("p", "x"), [("c1", [])])], none⟩ ("p", "x")
        ⟨some "", none, some "boom"⟩).1.actors2calls ("p", "x") =
      some [("c1", [⟨some "", none, some "boom"⟩])] := by
  exact ⟨rfl, by decide⟩

/-- C10 (amended).  A received message whose `cid` value is falsy (absent,
`None`, or the empty string) is never routed by the reply path: the loop
processes it exactly as a message with no `cid` (falling through to
command, then error, processing) and the step outcome is never a reply
push — though the error fall-through may itself broadcast the same
message into the reply inboxes of the peer. -/
theorem falsy_cid_not_reply_routed (s : LoopState) (uid : Uid) (m : Msg)
    (h : m.cid = none ∨ m.cid = some "") :
    processMsg s uid m = processNonReply s uid m ∧
    ∀ c, (processMsg s uid m).2 ≠ StepOut.pushedReply c := by
  have hm : processMsg s uid m = processNonReply s uid m := by
    rcases h with h | h <;> simp [processMsg, h]
  refine ⟨hm, ?_⟩
  intro c
  rw [hm]
  exact processNonReply_not_reply s uid m c

/-- C10 (witness): the amended theorem at a concrete empty-string-cid
message. -/
theorem falsy_cid_not_reply_routed_witness :
    ((⟨some "", none, none⟩ : Msg).cid = none ∨
      (⟨some "", none, none⟩ : Msg).cid = some "") ∧
    (processMsg ⟨[], none⟩ ("p", "x") ⟨some "", none, none⟩ =
      processNonReply ⟨[], none⟩ ("p", "x") ⟨some "", none, none⟩ ∧
    ∀ c, (processMsg ⟨[], none⟩ ("p", "x") ⟨some "", none, none⟩).2 ≠
      StepOut.pushedReply c) :=
  ⟨Or.inr rfl,
    falsy_cid_not_reply_routed ⟨[], none⟩ ("p", "x") ⟨some "", none, none⟩ (Or.inr rfl)⟩

/-- Identity of one RPC responder task (its cancel scope). -/
abbrev TaskId := Nat

/-- Actions `Actor.cancel` performs, in the order it performs them. -/
inductive CancelAct where
  | cancelScope (c : ChanId) (t : TaskId)
  | waitNoMoreRpcTasks
  | cancelServer
  | cancelRoot
deriving DecidableEq, Repr

/-- The nested loops of `cancel_rpc_tasks`: for every channel in
`_rpc_tasks`, cancel the scope of every registered task, in table order. -/
def scopeCancels (rpc : List (ChanId × List TaskId)) : List CancelAct :=
  rpc.flatMap fun p => p.2.map (CancelAct.cancelScope p.1)

/-- The action trace of `Actor.cancel_rpc_tasks`.  The source rebinds the
loop variable `scopes` from the `_rpc_tasks` dict to each per-channel
list, so the final `if scopes:` tests the LAST value list when the dict
is nonempty (and the empty dict itself otherwise): the wait on
`_no_more_rpc_tasks` happens exactly when that list is nonempty. -/
def cancel_rpc_tasks_trace (rpc : List (ChanId × List TaskId)) : List CancelAct :=
  scopeCancels rpc ++
    (match rpc.getLast? with
     | none => []
     | some p => if p.2 = [] then [] else [CancelAct.waitNoMoreRpcTasks])

/-- The action trace of `Actor.cancel`: cancel all RPC tasks (awaiting
`_no_more_rpc_tasks` as above), then cancel the server nursery scope,
then cancel the root nursery scope. -/
def cancel_trace (rpc : List (ChanId × List TaskId)) : List CancelAct :=
  cancel_rpc_tasks_trace rpc ++ [CancelAct.cancelServer, CancelAct.cancelRoot]

/-- C8.  On every reachable `_rpc_tasks` table (the code never leaves an
empty per-channel list behind, so every stored list is nonempty — the
hypothesis), `cancel()` emits: first the scope cancellation of every
registered `RpcTask` of every channel, then — whenever any task was
registered — the wait on `_no_more_rpc_tasks`, then the server-scope
cancel, then the root-scope cancel.  In particular the root scope is
cancelled only after every RPC-task cancellation has been issued. -/
theorem cancel_order (rpc : List (ChanId × List TaskId))
    (h : ∀ p ∈ rpc, p.2 ≠ []) :
    cancel_trace rpc =
      scopeCancels rpc ++
        (if rpc = [] then [] else [CancelAct.waitNoMoreRpcTasks]) ++
        [CancelAct.cancelServer, CancelAct.cancelRoot] ∧
    (∀ a ∈ scopeCancels rpc, ∃ c t, a = CancelAct.cancelScope c t) ∧
    (∀ p ∈ rpc, ∀ t ∈ p.2, CancelAct.cancelScope p.1 t ∈ scopeCancels rpc) := by
  refine ⟨?_, ?_, ?_⟩
  · rcases rpc with _ | ⟨p, rest⟩
    · rfl
    · have hne : (p :: rest : List (ChanId × List TaskId)) ≠ [] := by simp
      have hlast : (p :: rest).getLast? = some ((p :: rest).getLast hne) :=
        List.getLast?_eq_getLast _ hne
      have hnonempty : ((p :: rest).getLast hne).2 ≠ [] :=
        h _ (List.getLast_mem hne)
      unfold cancel_trace cancel_rpc_tasks_trace
      rw [hlast]
      simp [hnonempty]
  · intro a ha
    rw [scopeCancels, List.mem_flatMap] at ha
    obtain ⟨p, hp, ha⟩ := ha
    rw [List.mem_map] at ha
    obtain ⟨t, ht, rfl⟩ := ha
    exact ⟨p.1, t, rfl⟩
  · intro p hp t ht
    rw [scopeCancels, List.mem_flatMap]
    exact ⟨p, hp, List.mem_map.mpr ⟨t, ht, rfl⟩⟩

/-- C8 (witness): the ordering theorem at a one-channel, one-task table. -/
theorem cancel_order_witness :
    (∀ p ∈ [((0 : ChanId), [(1 : TaskId)])], p.2 ≠ []) ∧
    (cancel_trace [(0, [1])] =
      scopeCancels [(0, [1])] ++
        (if ([((0 : ChanId), [(1 : TaskId)])] : List (ChanId × List TaskId)) = []
          then [] else [CancelAct.waitNoMoreRpcTasks]) ++
        [CancelAct.cancelServer, CancelAct.cancelRoot] ∧
    (∀ a ∈ scopeCancels [(0, [1])], ∃ c t, a = CancelAct.cancelScope c t) ∧
    (∀ p ∈ [((0 : ChanId), [(1 : TaskId)])], ∀ t ∈ p.2,
      CancelAct.cancelScope p.1 t ∈ scopeCancels [(0, [1])])) :=
  ⟨by decide, cancel_order [(0, [1])] (by decide)⟩

/-- Identity of a process-local `Actor` object. -/
abbrev ActorRef := Nat

/-- `current_actor` from `tractor/_state.py`: raise `RuntimeError` when
the process-local slot is `None` and `err_on_no_runtime` holds, otherwise
return the slot. -/
def current_actor (cur : Option ActorRef) (errOnNoRuntime : Bool) :
    Except String (Option ActorRef) :=
  if cur = none ∧ errOnNoRuntime then
    Except.error "No local actor has been initialized yet"
  else Except.ok cur

/-- C9.  With the slot uninitialized and `err_on_no_runtime` at its
default `True`, `current_actor` raises `RuntimeError`; with
`err_on_no_runtime=False` it returns `None`; with an actor initialized it
returns that actor whatever the flag. -/
theorem current_actor_spec :
    current_actor none true = Except.error "No local actor has been initialized yet" ∧
    current_actor none false = Except.ok none ∧
    ∀ (a : ActorRef) (b : Bool), current_actor (some a) b = Except.ok (some a) := by
  refine ⟨rfl, rfl, ?_⟩
  intro a b
  simp [current_actor]

end Tractor
